import Mathlib

set_option maxRecDepth 10000

/-!
Verification of the data-object generator (`generate_data_object.py`).

The development shallowly embeds the script's pure core: the snake-case /
camel-case name derivation helpers, the DB-type → PHP-type mapper, the
table-name → entity-name converter, the two template renderers for the
interface and data-class artifacts, and the control flow of `main`
(existence check, empty-schema check, interactive table selection,
attribute construction, file generation).

Modeling conventions:
* Python strings are Lean `String`s; character-level operations go through
  `String.data` (`List Char`).  `Char.toUpper`/`Char.toLower` model Python's
  ASCII case mapping (all inputs of interest are ASCII).
* Fallible Python expressions are embedded as `Option`/`Except` values:
  `none`/`.error` models a raised exception (`AttributeError` from
  `None.lower()`, `IndexError` from indexing an empty string).
* `sys.exit(1)` in `main` is modeled as `Except.error (RunError.exit 1 msg)`;
  a successful run returns the list of `(path, content)` pairs that
  `write_file` would write, in write order.  An error result means the run
  terminates before any file or directory is written, mirroring the script's
  straight-line control flow.
-/

/-- Split a character list on a separator character.  Models Python's
`str.split(sep)` for a single-character separator: splitting the empty
string yields `[[]]`, and consecutive separators yield empty segments. -/
def splitOnChar (sep : Char) : List Char → List (List Char)
  | [] => [[]]
  | c :: cs =>
    if c = sep then [] :: splitOnChar sep cs
    else
      match splitOnChar sep cs with
      | [] => [[c]]
      | l :: ls => (c :: l) :: ls

/-- Models Python's `str.capitalize()` on a character list: the first
character is upper-cased and every later character is lower-cased. -/
def pyCapitalizeL : List Char → List Char
  | [] => []
  | c :: cs => c.toUpper :: cs.map Char.toLower

/-- Models Python's `str.capitalize()`. -/
def pyCapitalize (s : String) : String :=
  String.mk (pyCapitalizeL s.data)

/-- Models Python's `str.upper()`. -/
def pyUpper (s : String) : String :=
  String.mk (s.data.map Char.toUpper)

/-- Models Python's `str.lower()`. -/
def pyLower (s : String) : String :=
  String.mk (s.data.map Char.toLower)

/-- Models Python's `s[0].upper() + s[1:]` on a nonempty string, the
expression the renderers use to build a method-name suffix from a
camel-case name (source lines 39 and 69).  On the empty string Python
raises `IndexError`, modeled as `none`. -/
def method_suffix (s : String) : Option String :=
  match s.data with
  | [] => none
  | c :: cs => some (String.mk (c.toUpper :: cs))

/-- Total companion of `method_suffix`, used to state theorems: upper-case
the first character, keep the rest unchanged. -/
def upper_first (s : String) : String :=
  match s.data with
  | [] => ""
  | c :: cs => String.mk (c.toUpper :: cs)

/-- Models Python's `str.strip()`: drop leading and trailing whitespace. -/
def py_strip (s : String) : String :=
  String.mk (((s.data.dropWhile Char.isWhitespace).reverse.dropWhile Char.isWhitespace).reverse)

/-- Models Python's `str.isdigit()` (restricted to ASCII digits): true on a
nonempty string all of whose characters are digits. -/
def py_isdigit (s : String) : Bool :=
  !s.data.isEmpty && s.data.all Char.isDigit

/-- Models Python's `int(s)` on a digit string. -/
def py_int (s : String) : Nat :=
  s.data.foldl (fun a c => 10 * a + (c.toNat - 48)) 0

/-- Models Python's `sep.join(strings)`. -/
def joinSep (sep : String) : List String → String
  | [] => ""
  | [a] => a
  | a :: b :: rest => a ++ sep ++ joinSep sep (b :: rest)

/-- `snake_to_camel` (source lines 21–24): split on `'_'`, keep the first
component unchanged, `capitalize` every later component, and concatenate. -/
def snake_to_camel (snake_str : String) : String :=
  match splitOnChar '_' snake_str.data with
  | [] => ""
  | c :: rest => String.mk (c ++ (rest.map pyCapitalizeL).flatten)

/-- `create_set_method_name` (source lines 9–11):
`"set" + snake_to_camel(attr_name).capitalize()`. -/
def create_set_method_name (attr_name : String) : String :=
  "set" ++ pyCapitalize (snake_to_camel attr_name)

/-- `create_get_method_name` (source lines 13–15):
`"get" + snake_to_camel(attr_name).capitalize()`. -/
def create_get_method_name (attr_name : String) : String :=
  "get" ++ pyCapitalize (snake_to_camel attr_name)

/-- `create_property_name` (source lines 17–19): `"_" + attr_name`. -/
def create_property_name (attr_name : String) : String :=
  "_" ++ attr_name

/-- Association-list model of the Python dict literal in
`map_db_type_to_php_type` (source lines 211–224). -/
def php_type_mapping : List (String × String) :=
  [("int", "int"), ("smallint", "int"), ("bigint", "int"),
   ("decimal", "float"), ("float", "float"), ("double", "float"),
   ("boolean", "bool"),
   ("varchar", "string"), ("text", "string"),
   ("timestamp", "\\DateTimeInterface"), ("datetime", "\\DateTimeInterface"),
   ("date", "\\DateTimeInterface")]

/-- Models Python's `dict.get(key, default)` over an association list. -/
def dict_get (m : List (String × String)) (key default : String) : String :=
  match m with
  | [] => default
  | (k, v) :: rest => if key = k then v else dict_get rest key default

/-- `map_db_type_to_php_type` (source lines 209–225):
`mapping.get(db_type.lower(), "string")`.  The argument is the column's
`xsi:type` attribute, which is `None` when absent; Python then raises
`AttributeError` from `None.lower()`, modeled as `none`. -/
def map_db_type_to_php_type : Option String → Option String
  | none => none
  | some db_type => some (dict_get php_type_mapping (pyLower db_type) "string")

/-- `convert_table_to_entity` (source lines 227–231): split the table name
on `'_'`, keep `parts[-2:]` when there is more than one part (all parts
otherwise), `capitalize` each kept part and concatenate. -/
def convert_table_to_entity (table_name : String) : String :=
  let parts := splitOnChar '_' table_name.data
  let relevant := if parts.length > 1 then parts.drop (parts.length - 2) else parts
  String.mk ((relevant.map pyCapitalizeL).flatten)

/-- One constant line of `generate_interface_constants` (source line 31):
`f"    public const {constant_name} = '{attr_name}';"` with
`constant_name = attr_name.upper()`. -/
def interface_constant_line (a : String × String) : String :=
  "    public const " ++ pyUpper a.1 ++ " = \x27" ++ a.1 ++ "\x27;"

/-- `generate_interface_constants` (source lines 26–32): one constant line
per attribute, in order, joined by `"\n"`. -/
def generate_interface_constants (attributes : List (String × String)) : String :=
  joinSep "\n" (attributes.map interface_constant_line)

/-- The setter string appended by `generate_interface_methods` (source
lines 42–50), as a function of the attribute name, its type, the camel
form and the method-name suffix. -/
def interface_setter (attr_name attr_type camel sfx : String) : String :=
  "    /**\n     * Setter for " ++ attr_name ++
  "\n     *\n     * @param " ++ attr_type ++ " $" ++ camel ++
  "\n     * @return $this\n     */\n    public function set" ++ sfx ++
  "(" ++ attr_type ++ " $" ++ camel ++ "): self;"

/-- The getter string appended by `generate_interface_methods` (source
lines 53–61), without its leading `"\n"` and optional trailing `"\n"`. -/
def interface_getter (attr_name attr_type sfx : String) : String :=
  "    /**\n     * Getter for " ++ attr_name ++
  "\n     *\n     * @return " ++ attr_type ++
  "|null\n     */\n    public function get" ++ sfx ++ "(): " ++ attr_type ++ ";"

/-- The list `methods` built by the loop of `generate_interface_methods`
(source lines 36–61).  Per attribute the loop appends the setter string and
then the getter string prefixed with `"\n"`; the getter additionally gets a
trailing `"\n"` when the loop index `i` is not the last one
(`i != len(attributes) - 1`, i.e. the rest of the list is nonempty).
`none` models the `IndexError` raised by `camel_attr_name[0]` when the
camel form of an attribute name is empty. -/
def interfaceMethodStrings : List (String × String) → Option (List String)
  | [] => some []
  | (attr_name, attr_type) :: rest =>
    match method_suffix (snake_to_camel attr_name), interfaceMethodStrings rest with
    | some sfx, some tail =>
      some (interface_setter attr_name attr_type (snake_to_camel attr_name) sfx ::
        ("\n" ++ interface_getter attr_name attr_type sfx ++
          (if rest.isEmpty then "" else "\n")) :: tail)
    | _, _ => none

/-- `generate_interface_methods` (source lines 34–62): the loop's strings
joined by `"\n"`. -/
def generate_interface_methods (attributes : List (String × String)) : Option String :=
  (interfaceMethodStrings attributes).map (joinSep "\n")

/-- The setter string appended by `generate_data_class_methods` (source
lines 73–83); `const` is `attr_name.upper()`. -/
def data_class_setter (attr_name attr_type camel sfx const : String) : String :=
  "    /**\n     * Setter for " ++ attr_name ++
  "\n     *\n     * @param " ++ attr_type ++ " $" ++ camel ++
  "\n     * @return $this\n     */\n    public function set" ++ sfx ++
  "(" ++ attr_type ++ " $" ++ camel ++ "): self\n    \x7b\n" ++
  "        return $this->setData(self::" ++ const ++ ", $" ++ camel ++ ");\n    \x7d"

/-- The getter string appended by `generate_data_class_methods` (source
lines 86–95), without its leading `"\n"` and optional trailing `"\n"`. -/
def data_class_getter (attr_name attr_type sfx const : String) : String :=
  "    /**\n     * Getter for " ++ attr_name ++
  "\n     *\n     * @return " ++ attr_type ++
  "|null\n     */\n    public function get" ++ sfx ++ "(): " ++ attr_type ++
  "\n    \x7b\n" ++
  "        return $this->getData(self::" ++ const ++ ");\n    \x7d"

/-- The list `methods` built by the loop of `generate_data_class_methods`
(source lines 66–96), with the same `"\n"` placement as
`interfaceMethodStrings`. -/
def dataClassMethodStrings : List (String × String) → Option (List String)
  | [] => some []
  | (attr_name, attr_type) :: rest =>
    match method_suffix (snake_to_camel attr_name), dataClassMethodStrings rest with
    | some sfx, some tail =>
      some (data_class_setter attr_name attr_type (snake_to_camel attr_name) sfx (pyUpper attr_name) ::
        ("\n" ++ data_class_getter attr_name attr_type sfx (pyUpper attr_name) ++
          (if rest.isEmpty then "" else "\n")) :: tail)
    | _, _ => none

/-- `generate_data_class_methods` (source lines 64–98). -/
def generate_data_class_methods (attributes : List (String × String)) : Option String :=
  (dataClassMethodStrings attributes).map (joinSep "\n")

/-- `TEMPLATE_DATA_INTERFACE.format(...)` (source lines 100–116) as a
function of the placeholder values. -/
def TEMPLATE_DATA_INTERFACE (vendor module entity interface_constants interface_methods : String) : String :=
  "<?php\ndeclare(strict_types=1);\n\nnamespace " ++ vendor ++ "\\" ++ module ++
  "\\Api\\Data;\n\n/**\n * " ++ entity ++
  " data interface\n *\n * @api\n */\ninterface " ++ entity ++
  "Interface\n\x7b\n" ++ interface_constants ++ "\n\n" ++ interface_methods ++ "\n\x7d\n"

/-- `TEMPLATE_DATA_CLASS.format(...)` (source lines 118–135) as a function
of the placeholder values. -/
def TEMPLATE_DATA_CLASS (vendor module entity data_methods : String) : String :=
  "<?php\ndeclare(strict_types=1);\n\nnamespace " ++ vendor ++ "\\" ++ module ++
  "\\Model\\Data;\n\nuse Magento\\Framework\\Model\\AbstractExtensibleModel;\nuse " ++
  vendor ++ "\\" ++ module ++ "\\Api\\Data\\" ++ entity ++
  "Interface;\n\n/**\n * " ++ entity ++
  " data model\n *\n * @api\n */\nclass " ++ entity ++
  " extends AbstractExtensibleModel implements " ++ entity ++
  "Interface\n\x7b\n" ++ data_methods ++ "\n\x7d\n"

/-- `generate_data_object` (source lines 158–177): returns the two
`(path, content)` pairs handed to `write_file`, in write order (interface
first, then data class).  `none` models the `IndexError` propagated from
the method generators; the constants are computed first, then the interface
methods, then the data-class methods, matching the source's evaluation
order (lines 163–165), and nothing is written when either generator
raises. -/
def generate_data_object (vendor module entity : String)
    (attributes : List (String × String)) : Option (List (String × String)) :=
  let base_path := "app/code/" ++ vendor ++ "/" ++ module
  let interface_path := base_path ++ "/Api/Data/" ++ entity ++ "Interface.php"
  let data_path := base_path ++ "/Model/Data/" ++ entity ++ ".php"
  let interface_constants := generate_interface_constants attributes
  match generate_interface_methods attributes with
  | none => none
  | some interface_methods =>
    match generate_data_class_methods attributes with
    | none => none
    | some data_methods =>
      some [(interface_path,
             TEMPLATE_DATA_INTERFACE vendor module entity interface_constants interface_methods),
            (data_path,
             TEMPLATE_DATA_CLASS vendor module entity data_methods)]

/-- A `<column>` element as collected by `parse_magento_schema` (source
lines 192–200): its `name` attribute and its `xsi:type` attribute, the
latter `none` when absent. -/
structure Column where
  name : String
  type : Option String
deriving DecidableEq

/-- A `<table>` element as collected by `parse_magento_schema` (source
lines 188–205): its `name` attribute and its columns in document order. -/
structure Table where
  table : String
  columns : List Column
deriving DecidableEq

/-- How a run of `main` terminates abnormally: `exit code msg` models
`print(msg); sys.exit(code)`, and `exn msg` models an uncaught Python
exception. -/
inductive RunError where
  | exit (code : Nat) (msg : String)
  | exn (msg : String)
deriving DecidableEq

/-- The attribute list built by `main` (source lines 273–276):
`[(col["name"], map_db_type_to_php_type(col["type"])) for col in table["columns"]]`.
A column with an absent type makes `map_db_type_to_php_type` raise
`AttributeError`, aborting the comprehension. -/
def main_attributes (columns : List Column) : Except RunError (List (String × String)) :=
  columns.mapM fun col =>
    match map_db_type_to_php_type col.type with
    | some t => Except.ok (col.name, t)
    | none => Except.error (RunError.exn "AttributeError: NoneType has no attribute lower")

/-- The tail of `main` once a table is selected (source lines 267–278):
derive the entity name from the table name when no `--entity` argument was
given (Python's `if not args.entity` also treats the empty string as
absent), build the attribute list, and generate the two files. -/
def main_with_table (vendor module : String) (entityArg : Option String)
    (table : Table) : Except RunError (List (String × String)) :=
  let entity :=
    match entityArg with
    | none => convert_table_to_entity table.table
    | some e => if e = "" then convert_table_to_entity table.table else e
  match main_attributes table.columns with
  | Except.error e => Except.error e
  | Except.ok attributes =>
    match generate_data_object vendor module entity attributes with
    | some files => Except.ok files
    | none => Except.error (RunError.exn "IndexError: string index out of range")

/-- The control flow of `main` (source lines 233–278) after argument
parsing.  `schemaExists` models `os.path.exists(db_schema_path)`;
`parseResult` models the outcome of `parse_magento_schema` (only consulted
after the existence check, as in the source); `selectionInput` models the
`input()` answer, which is only consulted when more than one table exists.
The checks happen in source order: existence (246–248), empty table list
(251–253), selection validation (259–265), then generation (278). -/
def main_run (vendor module : String) (entityArg : Option String)
    (db_schema_path : String) (schemaExists : Bool)
    (parseResult : Except RunError (List Table)) (selectionInput : String) :
    Except RunError (List (String × String)) :=
  if schemaExists = false then
    Except.error (RunError.exit 1 ("Error: File not found: " ++ db_schema_path))
  else
    match parseResult with
    | Except.error e => Except.error e
    | Except.ok tables =>
      match tables with
      | [] => Except.error (RunError.exit 1 "No tables found in schema.")
      | t :: ts =>
        if 1 < (t :: ts).length then
          let index := py_strip selectionInput
          if h : py_isdigit index = true ∧ 1 ≤ py_int index ∧ py_int index ≤ (t :: ts).length then
            main_with_table vendor module entityArg
              ((t :: ts).get ⟨py_int index - 1, by omega⟩)
          else Except.error (RunError.exit 1 "Invalid selection.")
        else main_with_table vendor module entityArg t

/-- The per-attribute list shape shared by the two method generators:
for each attribute the setter string, then the getter string carrying its
leading `"\n"` and, when the attribute is not the last one, a trailing
`"\n"`. -/
def methodPairList (f g : (String × String) → String) : List (String × String) → List String
  | [] => []
  | a :: rest =>
    f a :: ("\n" ++ g a ++ (if rest.isEmpty then "" else "\n")) :: methodPairList f g rest

/-- The interface setter declaration for an attribute, with the camel form
and suffix the generator computes for it. -/
def interface_setter_of (a : String × String) : String :=
  interface_setter a.1 a.2 (snake_to_camel a.1) (upper_first (snake_to_camel a.1))

/-- The interface getter declaration for an attribute. -/
def interface_getter_of (a : String × String) : String :=
  interface_getter a.1 a.2 (upper_first (snake_to_camel a.1))

/-- The data-class setter declaration for an attribute. -/
def data_class_setter_of (a : String × String) : String :=
  data_class_setter a.1 a.2 (snake_to_camel a.1) (upper_first (snake_to_camel a.1)) (pyUpper a.1)

/-- The data-class getter declaration for an attribute. -/
def data_class_getter_of (a : String × String) : String :=
  data_class_getter a.1 a.2 (upper_first (snake_to_camel a.1)) (pyUpper a.1)

/-- The seven lines of an interface setter declaration. -/
def interface_setter_lines (attr_name attr_type camel sfx : String) : List String :=
  ["    /**",
   "     * Setter for " ++ attr_name,
   "     *",
   "     * @param " ++ attr_type ++ " $" ++ camel,
   "     * @return $this",
   "     */",
   "    public function set" ++ sfx ++ "(" ++ attr_type ++ " $" ++ camel ++ "): self;"]

/-- The six lines of an interface getter declaration. -/
def interface_getter_lines (attr_name attr_type sfx : String) : List String :=
  ["    /**",
   "     * Getter for " ++ attr_name,
   "     *",
   "     * @return " ++ attr_type ++ "|null",
   "     */",
   "    public function get" ++ sfx ++ "(): " ++ attr_type ++ ";"]

/-- The documentation block and signature shared verbatim by the interface
setter (which appends `";"`) and the data-class setter (which appends a
body). -/
def setter_signature (attr_name attr_type camel sfx : String) : String :=
  "    /**\n     * Setter for " ++ attr_name ++
  "\n     *\n     * @param " ++ attr_type ++ " $" ++ camel ++
  "\n     * @return $this\n     */\n    public function set" ++ sfx ++
  "(" ++ attr_type ++ " $" ++ camel ++ "): self"

/-- The documentation block and signature shared verbatim by the interface
getter and the data-class getter. -/
def getter_signature (attr_name attr_type sfx : String) : String :=
  "    /**\n     * Getter for " ++ attr_name ++
  "\n     *\n     * @return " ++ attr_type ++
  "|null\n     */\n    public function get" ++ sfx ++ "(): " ++ attr_type

/-- The line blocks of the interface methods text: one block of lines per
method declaration, two declarations (setter, getter) per attribute, in
attribute order. -/
def interfaceLineBlocks (attrs : List (String × String)) : List (List (List Char)) :=
  attrs.flatMap fun a =>
    [(interface_setter_lines a.1 a.2 (snake_to_camel a.1) (upper_first (snake_to_camel a.1))).map String.data,
     (interface_getter_lines a.1 a.2 (upper_first (snake_to_camel a.1))).map String.data]

/-- Everything `TEMPLATE_DATA_INTERFACE` places before the methods text:
header, namespace, interface head, the constants block and the blank line
following it. -/
def interface_artifact_start (vendor module entity interface_constants : String) : String :=
  "<?php\ndeclare(strict_types=1);\n\nnamespace " ++ vendor ++ "\\" ++ module ++
  "\\Api\\Data;\n\n/**\n * " ++ entity ++
  " data interface\n *\n * @api\n */\ninterface " ++ entity ++
  "Interface\n\x7b\n" ++ interface_constants ++ "\n\n"

/-- Join a list of character lists with a separator sequence between
consecutive elements. -/
def joinLC (sep : List Char) : List (List Char) → List Char
  | [] => []
  | [x] => x
  | x :: y :: ys => x ++ sep ++ joinLC sep (y :: ys)

/-- Interleave one empty line between consecutive blocks of lines. -/
def blockSeparated : List (List (List Char)) → List (List Char)
  | [] => []
  | [b] => b
  | b :: b2 :: bs => b ++ [] :: blockSeparated (b2 :: bs)

/-! ### Basic facts about the character-level primitives -/

theorem uint32_le_iff {x y : UInt32} : x ≤ y ↔ x.toNat ≤ y.toNat := by
  simp only [UInt32.le_def, BitVec.le_def]
  rfl

theorem char_isUpper_iff (c : Char) : c.isUpper = true ↔ 65 ≤ c.toNat ∧ c.toNat ≤ 90 := by
  simp only [Char.isUpper, ge_iff_le, Bool.and_eq_true, decide_eq_true_eq, uint32_le_iff]
  rfl

theorem char_ofNat_toNat {n : Nat} (h : n < 55296) : (Char.ofNat n).toNat = n := by
  unfold Char.ofNat
  rw [dif_pos (Or.inl h)]
  rfl

theorem char_toLower_def (c : Char) :
    c.toLower = if 65 ≤ c.toNat ∧ c.toNat ≤ 90 then Char.ofNat (c.toNat + 32) else c := rfl

theorem char_toUpper_def (c : Char) :
    c.toUpper = if 97 ≤ c.toNat ∧ c.toNat ≤ 122 then Char.ofNat (c.toNat - 32) else c := rfl

theorem char_toLower_ne_nl {c : Char} (h : c ≠ '\n') : c.toLower ≠ '\n' := by
  rw [char_toLower_def]
  split
  · rename_i hr
    intro hc
    have h1 : (Char.ofNat (c.toNat + 32)).toNat = c.toNat + 32 := char_ofNat_toNat (by omega)
    rw [hc] at h1
    have h2 : ('\n' : Char).toNat = 10 := by decide
    omega
  · exact h

theorem char_toUpper_ne_nl {c : Char} (h : c ≠ '\n') : c.toUpper ≠ '\n' := by
  rw [char_toUpper_def]
  split
  · rename_i hr
    intro hc
    have h1 : (Char.ofNat (c.toNat - 32)).toNat = c.toNat - 32 := char_ofNat_toNat (by omega)
    rw [hc] at h1
    have h2 : ('\n' : Char).toNat = 10 := by decide
    omega
  · exact h

theorem char_toLower_eq_self_iff (c : Char) : c.toLower = c ↔ c.isUpper = false := by
  constructor
  · intro h
    by_contra hb
    have hu : c.isUpper = true := by
      cases hi : c.isUpper
      · exact absurd hi hb
      · rfl
    have hr := (char_isUpper_iff c).mp hu
    have h1 : (Char.ofNat (c.toNat + 32)).toNat = c.toNat + 32 := char_ofNat_toNat (by omega)
    rw [char_toLower_def, if_pos hr] at h
    rw [h] at h1
    omega
  · intro h
    have hr : ¬(65 ≤ c.toNat ∧ c.toNat ≤ 90) := by
      intro hc
      rw [(char_isUpper_iff c).mpr hc] at h
      simp at h
    rw [char_toLower_def, if_neg hr]

/-! ### Facts about `splitOnChar`, `joinLC` and line structure -/

theorem splitOnChar_ne_nil (sep : Char) (l : List Char) : splitOnChar sep l ≠ [] := by
  induction l with
  | nil => simp [splitOnChar]
  | cons c cs ih =>
    simp only [splitOnChar]
    by_cases hc : c = sep
    · simp [hc]
    · simp only [if_neg hc]
      cases h : splitOnChar sep cs with
      | nil => exact absurd h ih
      | cons l ls => simp

theorem splitOnChar_of_not_mem {sep : Char} : ∀ {l : List Char}, sep ∉ l → splitOnChar sep l = [l]
  | [], _ => rfl
  | c :: cs, h => by
    have hc : c ≠ sep := fun he => h (he ▸ List.mem_cons_self c cs)
    have hcs : sep ∉ cs := fun hm => h (List.mem_cons_of_mem c hm)
    simp only [splitOnChar, if_neg hc, splitOnChar_of_not_mem hcs]

theorem splitOnChar_append {sep : Char} :
    ∀ {x : List Char}, sep ∉ x → ∀ (r : List Char),
      splitOnChar sep (x ++ sep :: r) = x :: splitOnChar sep r
  | [], _, r => by simp [splitOnChar]
  | c :: cs, h, r => by
    have hc : c ≠ sep := fun he => h (he ▸ List.mem_cons_self c cs)
    have hcs : sep ∉ cs := fun hm => h (List.mem_cons_of_mem c hm)
    simp only [List.cons_append, splitOnChar, if_neg hc, List.append_eq,
      splitOnChar_append hcs r]

theorem splitOnChar_sublist {sep : Char} :
    ∀ {l : List Char} {x : List Char}, x ∈ splitOnChar sep l → x.Sublist l := by
  intro l
  induction l with
  | nil =>
    intro x hx
    simp [splitOnChar] at hx
    simp [hx]
  | cons c cs ih =>
    intro x hx
    simp only [splitOnChar] at hx
    by_cases hc : c = sep
    · rw [if_pos hc] at hx
      rcases List.mem_cons.mp hx with h0 | h0
      · simp [h0]
      · exact (ih h0).cons c
    · rw [if_neg hc] at hx
      cases h : splitOnChar sep cs with
      | nil => exact absurd h (splitOnChar_ne_nil sep cs)
      | cons l0 ls =>
        rw [h] at hx
        rcases List.mem_cons.mp hx with h0 | h0
        · subst h0
          have hl0 : l0.Sublist cs := ih (h ▸ List.mem_cons_self l0 ls)
          exact hl0.cons₂ c
        · exact (ih (h ▸ List.mem_cons_of_mem l0 h0)).cons c

theorem splitOnChar_mem_of_mem {sep c : Char} {l x : List Char}
    (hx : x ∈ splitOnChar sep l) (hc : c ∈ x) : c ∈ l :=
  (splitOnChar_sublist hx).mem hc

theorem splitOnChar_joinLC {sep : Char} :
    ∀ {xss : List (List Char)}, xss ≠ [] → (∀ x ∈ xss, sep ∉ x) →
      splitOnChar sep (joinLC [sep] xss) = xss
  | [], h, _ => absurd rfl h
  | [x], _, h => by
    simp only [joinLC]
    exact splitOnChar_of_not_mem (h x (List.mem_cons_self x []))
  | x :: y :: ys, _, h => by
    have hx : sep ∉ x := h x (List.mem_cons_self x (y :: ys))
    have hrest : ∀ z ∈ y :: ys, sep ∉ z := fun z hz => h z (List.mem_cons_of_mem x hz)
    simp only [joinLC, List.append_assoc, List.singleton_append]
    rw [splitOnChar_append hx, splitOnChar_joinLC (List.cons_ne_nil y ys) hrest]

theorem splitOnChar_joinLC_append {sep : Char} :
    ∀ {xss : List (List Char)}, xss ≠ [] → (∀ x ∈ xss, sep ∉ x) → ∀ (r : List Char),
      splitOnChar sep (joinLC [sep] xss ++ sep :: r) = xss ++ splitOnChar sep r
  | [], h, _, _ => absurd rfl h
  | [x], _, h, r => by
    simp only [joinLC]
    rw [splitOnChar_append (h x (List.mem_cons_self x [])) r]
    rfl
  | x :: y :: ys, _, h, r => by
    have hx : sep ∉ x := h x (List.mem_cons_self x (y :: ys))
    have hrest : ∀ z ∈ y :: ys, sep ∉ z := fun z hz => h z (List.mem_cons_of_mem x hz)
    have e1 : joinLC [sep] (x :: y :: ys) ++ sep :: r
        = x ++ sep :: (joinLC [sep] (y :: ys) ++ sep :: r) := by
      simp [joinLC, List.append_assoc]
    rw [e1, splitOnChar_append hx (joinLC [sep] (y :: ys) ++ sep :: r),
      splitOnChar_joinLC_append (List.cons_ne_nil y ys) hrest r]
    rfl

theorem blockSeparated_ne_nil :
    ∀ {blocks : List (List (List Char))}, blocks ≠ [] → (∀ b ∈ blocks, b ≠ []) →
      blockSeparated blocks ≠ []
  | [], h, _ => absurd rfl h
  | [b], _, h => by
    simp only [blockSeparated]
    exact h b (List.mem_cons_self b [])
  | b :: b2 :: bs, _, h => by
    simp only [blockSeparated]
    have hb : b ≠ [] := h b (List.mem_cons_self b (b2 :: bs))
    intro hc
    rcases List.append_eq_nil.mp hc with ⟨hb0, _⟩
    exact hb hb0

theorem blockSeparated_mem :
    ∀ {blocks : List (List (List Char))} {x : List Char},
      x ∈ blockSeparated blocks → x = [] ∨ ∃ b ∈ blocks, x ∈ b
  | [], x, hx => by simp [blockSeparated] at hx
  | [b], x, hx => by
    simp only [blockSeparated] at hx
    exact Or.inr ⟨b, List.mem_cons_self b [], hx⟩
  | b :: b2 :: bs, x, hx => by
    simp only [blockSeparated] at hx
    rcases List.mem_append.mp hx with h0 | h0
    · exact Or.inr ⟨b, List.mem_cons_self b (b2 :: bs), h0⟩
    · rcases List.mem_cons.mp h0 with h1 | h1
      · exact Or.inl h1
      · rcases blockSeparated_mem h1 with h2 | ⟨b0, hb0, hxb0⟩
        · exact Or.inl h2
        · exact Or.inr ⟨b0, List.mem_cons_of_mem b hb0, hxb0⟩

theorem joinLC_append (sep : List Char) :
    ∀ {xs ys : List (List Char)}, xs ≠ [] → ys ≠ [] →
      joinLC sep (xs ++ ys) = joinLC sep xs ++ sep ++ joinLC sep ys
  | [], _, h, _ => absurd rfl h
  | [x], ys, _, h2 => by
    cases ys with
    | nil => exact absurd rfl h2
    | cons y ys' => simp [joinLC]
  | x :: x2 :: xs, ys, _, h2 => by
    simp only [List.cons_append, joinLC, List.append_eq]
    have ih := joinLC_append sep (List.cons_ne_nil x2 xs) h2
    simp only [List.cons_append] at ih
    rw [ih]
    simp [List.append_assoc]

theorem joinLC_double {c : Char} :
    ∀ {blocks : List (List (List Char))}, (∀ b ∈ blocks, b ≠ []) →
      joinLC [c, c] (blocks.map (joinLC [c])) = joinLC [c] (blockSeparated blocks)
  | [], _ => rfl
  | [b], _ => rfl
  | b :: b2 :: bs, h => by
    have hb : b ≠ [] := h b (List.mem_cons_self b (b2 :: bs))
    have hrest : ∀ z ∈ b2 :: bs, z ≠ [] := fun z hz => h z (List.mem_cons_of_mem b hz)
    have hsep : blockSeparated (b2 :: bs) ≠ [] :=
      blockSeparated_ne_nil (List.cons_ne_nil b2 bs) hrest
    simp only [List.map_cons, joinLC, blockSeparated]
    have ih := @joinLC_double c (b2 :: bs) hrest
    simp only [List.map_cons] at ih
    rw [ih]
    rw [joinLC_append [c] hb (List.cons_ne_nil [] (blockSeparated (b2 :: bs)))]
    cases hs : blockSeparated (b2 :: bs) with
    | nil => exact absurd hs hsep
    | cons z zs => simp [joinLC, List.append_assoc]

example : snake_to_camel "first_name" = "firstName" := by decide
example : snake_to_camel "id" = "id" := by decide
example : snake_to_camel "a_bC" = "aBc" := by decide
example : create_set_method_name "first_name" = "setFirstname" := by decide
example : upper_first "firstName" = "FirstName" := by decide
example : convert_table_to_entity "bss_custom_entity" = "CustomEntity" := by decide
example : convert_table_to_entity "widget" = "Widget" := by decide
example : convert_table_to_entity "a_b_c" = "BC" := by decide
example : convert_table_to_entity "aB" = "Ab" := by decide
example : map_db_type_to_php_type (some "INT") = some "int" := by decide
example : map_db_type_to_php_type (some "Varchar") = some "string" := by decide
example : map_db_type_to_php_type (some "uuid") = some "string" := by decide
example : map_db_type_to_php_type none = none := by decide
example : py_isdigit "02" = true ∧ py_int "02" = 2 := by decide
example : py_strip " 2 " = "2" := by decide

/-! ### Structure of the generated method text -/

theorem joinSep_cons_of_ne_nil (sep x : String) {rest : List String} (h : rest ≠ []) :
    joinSep sep (x :: rest) = x ++ sep ++ joinSep sep rest := by
  cases rest with
  | nil => exact absurd rfl h
  | cons y ys => rfl

theorem joinSep_data (sep : String) :
    ∀ l : List String, (joinSep sep l).data = joinLC sep.data (l.map String.data)
  | [] => rfl
  | [a] => rfl
  | a :: b :: rest => by
    simp only [joinSep, List.map_cons, String.data_append, joinSep_data sep (b :: rest), joinLC]

theorem methodPairList_ne_nil (f g : (String × String) → String) {l : List (String × String)}
    (h : l ≠ []) : methodPairList f g l ≠ [] := by
  cases l with
  | nil => exact absurd rfl h
  | cons a rest => simp [methodPairList]

theorem methodPairList_join (f g : (String × String) → String) :
    ∀ l : List (String × String),
      joinSep "\n" (methodPairList f g l) = joinSep "\n\n" (l.flatMap fun a => [f a, g a])
  | [] => rfl
  | [a] => by
    apply String.ext
    simp [methodPairList, joinSep, String.data_append]
  | a :: b :: l' => by
    have hmp : methodPairList f g (b :: l') ≠ [] := methodPairList_ne_nil f g (List.cons_ne_nil b l')
    have hfm : ((b :: l').flatMap fun x => [f x, g x]) ≠ [] := by simp [List.flatMap_cons]
    have e1 : methodPairList f g (a :: b :: l')
        = f a :: ("\n" ++ g a ++ "\n") :: methodPairList f g (b :: l') := by
      simp [methodPairList]
    have e2 : ((a :: b :: l').flatMap fun x => [f x, g x])
        = f a :: g a :: ((b :: l').flatMap fun x => [f x, g x]) := by
      simp [List.flatMap_cons]
    rw [e1, joinSep_cons_of_ne_nil "\n" (f a) (List.cons_ne_nil _ _),
      joinSep_cons_of_ne_nil "\n" _ hmp, methodPairList_join f g (b :: l'), e2,
      joinSep_cons_of_ne_nil "\n\n" (f a) (List.cons_ne_nil _ _),
      joinSep_cons_of_ne_nil "\n\n" (g a) hfm]
    apply String.ext
    simp [String.data_append, List.append_assoc]

theorem method_suffix_some {s : String} (h : s.data ≠ []) :
    method_suffix s = some (upper_first s) := by
  cases hd : s.data with
  | nil => exact absurd hd h
  | cons c cs => simp [method_suffix, upper_first, hd]

theorem interfaceMethodStrings_eq :
    ∀ {attrs : List (String × String)}, (∀ a ∈ attrs, (snake_to_camel a.1).data ≠ []) →
      interfaceMethodStrings attrs = some (methodPairList interface_setter_of interface_getter_of attrs)
  | [], _ => rfl
  | (n, t) :: rest, h => by
    have h1 : (snake_to_camel n).data ≠ [] := h (n, t) (List.mem_cons_self _ _)
    have h2 : ∀ a ∈ rest, (snake_to_camel a.1).data ≠ [] :=
      fun a ha => h a (List.mem_cons_of_mem _ ha)
    simp only [interfaceMethodStrings, method_suffix_some h1, interfaceMethodStrings_eq h2]
    simp [methodPairList, interface_setter_of, interface_getter_of]

theorem dataClassMethodStrings_eq :
    ∀ {attrs : List (String × String)}, (∀ a ∈ attrs, (snake_to_camel a.1).data ≠ []) →
      dataClassMethodStrings attrs = some (methodPairList data_class_setter_of data_class_getter_of attrs)
  | [], _ => rfl
  | (n, t) :: rest, h => by
    have h1 : (snake_to_camel n).data ≠ [] := h (n, t) (List.mem_cons_self _ _)
    have h2 : ∀ a ∈ rest, (snake_to_camel a.1).data ≠ [] :=
      fun a ha => h a (List.mem_cons_of_mem _ ha)
    simp only [dataClassMethodStrings, method_suffix_some h1, dataClassMethodStrings_eq h2]
    simp [methodPairList, data_class_setter_of, data_class_getter_of]

theorem generate_interface_methods_eq {attrs : List (String × String)}
    (h : ∀ a ∈ attrs, (snake_to_camel a.1).data ≠ []) :
    generate_interface_methods attrs =
      some (joinSep "\n\n" (attrs.flatMap fun a => [interface_setter_of a, interface_getter_of a])) := by
  unfold generate_interface_methods
  rw [interfaceMethodStrings_eq h]
  simp [methodPairList_join]

theorem generate_data_class_methods_eq {attrs : List (String × String)}
    (h : ∀ a ∈ attrs, (snake_to_camel a.1).data ≠ []) :
    generate_data_class_methods attrs =
      some (joinSep "\n\n" (attrs.flatMap fun a => [data_class_setter_of a, data_class_getter_of a])) := by
  unfold generate_data_class_methods
  rw [dataClassMethodStrings_eq h]
  simp [methodPairList_join]

/-! ### Line decomposition of the rendered declarations -/

theorem interface_setter_split (n t c s : String) :
    interface_setter n t c s = joinSep "\n" (interface_setter_lines n t c s) := by
  unfold interface_setter interface_setter_lines
  rw [show ("    /**\n     * Setter for " : String)
      = "    /**" ++ "\n" ++ "     * Setter for " from rfl]
  rw [show ("\n     *\n     * @param " : String)
      = "\n" ++ "     *" ++ "\n" ++ "     * @param " from rfl]
  rw [show ("\n     * @return $this\n     */\n    public function set" : String)
      = "\n" ++ "     * @return $this" ++ "\n" ++ "     */" ++ "\n" ++ "    public function set"
      from rfl]
  apply String.ext
  simp [joinSep, String.data_append, List.append_assoc]

theorem interface_getter_split (n t s : String) :
    interface_getter n t s = joinSep "\n" (interface_getter_lines n t s) := by
  unfold interface_getter interface_getter_lines
  rw [show ("    /**\n     * Getter for " : String)
      = "    /**" ++ "\n" ++ "     * Getter for " from rfl]
  rw [show ("\n     *\n     * @return " : String)
      = "\n" ++ "     *" ++ "\n" ++ "     * @return " from rfl]
  rw [show ("|null\n     */\n    public function get" : String)
      = "|null" ++ "\n" ++ "     */" ++ "\n" ++ "    public function get" from rfl]
  apply String.ext
  simp [joinSep, String.data_append, List.append_assoc]

theorem ne_nil_append_left (a b : String) (h : a.data ≠ []) : (a ++ b).data ≠ [] := by
  simp only [String.data_append]
  intro hc
  exact h (List.append_eq_nil.mp hc).1

/-! ### Newlines never appear in the derived name forms -/

theorem nl_not_mem_pyCapitalizeL {l : List Char} (h : '\n' ∉ l) : '\n' ∉ pyCapitalizeL l := by
  cases l with
  | nil => simp [pyCapitalizeL]
  | cons c cs =>
    have hc : c ≠ '\n' := fun he => h (he ▸ List.mem_cons_self c cs)
    have hcs : '\n' ∉ cs := fun hm => h (List.mem_cons_of_mem c hm)
    intro hm
    rcases List.mem_cons.mp hm with h0 | h0
    · exact char_toUpper_ne_nl hc h0.symm
    · rcases List.mem_map.mp h0 with ⟨x, hx, hx2⟩
      have hxne : x ≠ '\n' := fun he => hcs (he ▸ hx)
      exact char_toLower_ne_nl hxne hx2

theorem nl_not_mem_snake {n : String} (h : '\n' ∉ n.data) : '\n' ∉ (snake_to_camel n).data := by
  unfold snake_to_camel
  cases hs : splitOnChar '_' n.data with
  | nil => simp
  | cons c rest =>
    intro hm
    rcases List.mem_append.mp hm with h0 | h0
    · exact h (splitOnChar_mem_of_mem (hs ▸ List.mem_cons_self c rest) h0)
    · rcases List.mem_flatten.mp h0 with ⟨w, hw, hmw⟩
      rcases List.mem_map.mp hw with ⟨w0, hw0, hw0e⟩
      have hw0nl : '\n' ∉ w0 :=
        fun hm0 => h (splitOnChar_mem_of_mem (hs ▸ List.mem_cons_of_mem c hw0) hm0)
      exact nl_not_mem_pyCapitalizeL hw0nl (hw0e ▸ hmw)

theorem nl_not_mem_upper_first {s : String} (h : '\n' ∉ s.data) : '\n' ∉ (upper_first s).data := by
  unfold upper_first
  cases hd : s.data with
  | nil => simp
  | cons c cs =>
    have hc : c ≠ '\n' := fun he => (hd ▸ h) (he ▸ List.mem_cons_self c cs)
    have hcs : '\n' ∉ cs := fun hm => (hd ▸ h) (List.mem_cons_of_mem c hm)
    intro hm
    rcases List.mem_cons.mp hm with h0 | h0
    · exact char_toUpper_ne_nl hc h0.symm
    · exact hcs h0

theorem interface_setter_lines_nl {n t c s : String}
    (hn : '\n' ∉ n.data) (ht : '\n' ∉ t.data) (hc : '\n' ∉ c.data) (hs : '\n' ∉ s.data) :
    ∀ line ∈ interface_setter_lines n t c s, '\n' ∉ line.data := by
  intro line hl
  fin_cases hl <;> simp [String.data_append, hn, ht, hc, hs]

theorem interface_getter_lines_nl {n t s : String}
    (hn : '\n' ∉ n.data) (ht : '\n' ∉ t.data) (hs : '\n' ∉ s.data) :
    ∀ line ∈ interface_getter_lines n t s, '\n' ∉ line.data := by
  intro line hl
  fin_cases hl <;> simp [String.data_append, hn, ht, hs]

theorem interface_setter_lines_ne_nil (n t c s : String) :
    ∀ line ∈ interface_setter_lines n t c s, line.data ≠ [] := by
  intro line hl
  fin_cases hl <;> first
    | decide
    | ((repeat' apply ne_nil_append_left); decide)

theorem interface_getter_lines_ne_nil (n t s : String) :
    ∀ line ∈ interface_getter_lines n t s, line.data ≠ [] := by
  intro line hl
  fin_cases hl <;> first
    | decide
    | ((repeat' apply ne_nil_append_left); decide)

/-! ### Blocks of the interface methods text -/

theorem interfaceLineBlocks_ne_nil {attrs : List (String × String)} (h : attrs ≠ []) :
    interfaceLineBlocks attrs ≠ [] := by
  cases attrs with
  | nil => exact absurd rfl h
  | cons a rest => simp [interfaceLineBlocks]

theorem interfaceLineBlocks_blocks_ne_nil (attrs : List (String × String)) :
    ∀ b ∈ interfaceLineBlocks attrs, b ≠ [] := by
  intro b hb
  simp only [interfaceLineBlocks, List.mem_flatMap] at hb
  obtain ⟨a, _, hb2⟩ := hb
  rcases List.mem_cons.mp hb2 with h0 | h0
  · subst h0
    simp [interface_setter_lines]
  · rcases List.mem_cons.mp h0 with h1 | h1
    · subst h1
      simp [interface_getter_lines]
    · simp at h1

theorem interfaceLineBlocks_nl {attrs : List (String × String)}
    (h : ∀ a ∈ attrs, '\n' ∉ a.1.data ∧ '\n' ∉ a.2.data) :
    ∀ b ∈ interfaceLineBlocks attrs, ∀ x ∈ b, '\n' ∉ x := by
  intro b hb x hx
  simp only [interfaceLineBlocks, List.mem_flatMap] at hb
  obtain ⟨a, ha, hb2⟩ := hb
  have hn : '\n' ∉ a.1.data := (h a ha).1
  have ht : '\n' ∉ a.2.data := (h a ha).2
  have hcamel : '\n' ∉ (snake_to_camel a.1).data := nl_not_mem_snake hn
  have hsfx : '\n' ∉ (upper_first (snake_to_camel a.1)).data := nl_not_mem_upper_first hcamel
  rcases List.mem_cons.mp hb2 with h0 | h0
  · subst h0
    rcases List.mem_map.mp hx with ⟨line, hline, hle⟩
    exact hle ▸ interface_setter_lines_nl hn ht hcamel hsfx line hline
  · rcases List.mem_cons.mp h0 with h1 | h1
    · subst h1
      rcases List.mem_map.mp hx with ⟨line, hline, hle⟩
      exact hle ▸ interface_getter_lines_nl hn ht hsfx line hline
    · simp at h1

theorem interface_methods_data {attrs : List (String × String)} :
    (joinSep "\n\n" (attrs.flatMap fun a => [interface_setter_of a, interface_getter_of a])).data
      = joinLC ['\n'] (blockSeparated (interfaceLineBlocks attrs)) := by
  rw [joinSep_data]
  have hmap : (attrs.flatMap fun a => [interface_setter_of a, interface_getter_of a]).map String.data
      = (interfaceLineBlocks attrs).map (joinLC ['\n']) := by
    rw [List.map_flatMap]
    rw [interfaceLineBlocks, List.map_flatMap]
    congr 1
    funext a
    simp only [List.map_cons, List.map_nil, List.cons.injEq, and_true]
    constructor
    · rw [interface_setter_of, interface_setter_split, joinSep_data]
    · rw [interface_getter_of, interface_getter_split, joinSep_data]
  rw [hmap, show ("\n\n" : String).data = ['\n', '\n'] from rfl]
  exact joinLC_double (interfaceLineBlocks_blocks_ne_nil attrs)

/-! ### Signature sharing between the two artifacts -/

theorem interface_setter_sig (n t c s : String) :
    interface_setter n t c s = setter_signature n t c s ++ ";" := by
  unfold interface_setter setter_signature
  rw [show ("): self;" : String) = "): self" ++ ";" from rfl]
  apply String.ext
  simp [String.data_append, List.append_assoc]

theorem interface_getter_sig (n t s : String) :
    interface_getter n t s = getter_signature n t s ++ ";" := by
  unfold interface_getter getter_signature
  apply String.ext
  simp [String.data_append, List.append_assoc]

theorem data_class_setter_sig (n t c s k : String) :
    data_class_setter n t c s k = setter_signature n t c s ++
      ("\n    \x7b\n        return $this->setData(self::" ++ k ++ ", $" ++ c ++ ");\n    \x7d") := by
  unfold data_class_setter setter_signature
  rw [show ("): self\n    \x7b\n" : String) = "): self" ++ "\n    \x7b\n" from rfl]
  rw [show ("\n    \x7b\n        return $this->setData(self::" : String)
      = "\n    \x7b\n" ++ "        return $this->setData(self::" from rfl]
  apply String.ext
  simp [String.data_append, List.append_assoc]

theorem data_class_getter_sig (n t s k : String) :
    data_class_getter n t s k = getter_signature n t s ++
      ("\n    \x7b\n        return $this->getData(self::" ++ k ++ ");\n    \x7d") := by
  unfold data_class_getter getter_signature
  rw [show ("\n    \x7b\n        return $this->getData(self::" : String)
      = "\n    \x7b\n" ++ "        return $this->getData(self::" from rfl]
  apply String.ext
  simp [String.data_append, List.append_assoc]

/-! ### Assorted helper lemmas -/

theorem dict_get_eq_default : ∀ {m : List (String × String)} {key d : String},
    (∀ p ∈ m, key ≠ p.1) → dict_get m key d = d
  | [], _, _, _ => rfl
  | (k, v) :: rest, key, d, h => by
    have hk : key ≠ k := h (k, v) (List.mem_cons_self _ _)
    simp only [dict_get, if_neg hk]
    exact dict_get_eq_default fun p hp => h p (List.mem_cons_of_mem _ hp)

theorem list_map_eq_self_iff {α : Type} (f : α → α) :
    ∀ l : List α, (l.map f = l ↔ ∀ x ∈ l, f x = x)
  | [] => by simp
  | a :: l => by
    simp only [List.map_cons, List.cons.injEq, List.mem_cons]
    rw [list_map_eq_self_iff f l]
    constructor
    · rintro ⟨h1, h2⟩ x hx
      rcases hx with rfl | hx
      · exact h1
      · exact h2 x hx
    · intro h
      exact ⟨h a (Or.inl rfl), fun x hx => h x (Or.inr hx)⟩

theorem drop_length_sub_two {α : Type} (l : List α) :
    l.drop (l.length - 2) = (l.reverse.take 2).reverse := by
  rw [List.take_reverse, List.reverse_reverse]

/-! ### Claim theorems -/

/-- Claim C1 (code bug): the claim states that a null/absent raw column
type maps to the default `"string"` and that a run over a schema with such
a column completes.  In the code, `map_db_type_to_php_type(None)` calls
`None.lower()` and raises `AttributeError` (modeled as `none`), and a run
over a schema containing a type-less column aborts with that exception
instead of completing: the run produces an error and writes nothing. -/
theorem c1_null_type_crash :
    map_db_type_to_php_type none = none
    ∧ main_run "Vendor" "Module" none "db_schema.xml" true
        (Except.ok [⟨"some_table", [⟨"col", none⟩]⟩]) ""
      = Except.error (RunError.exn "AttributeError: NoneType has no attribute lower") :=
  ⟨rfl, rfl⟩

/-- Claim C6: with a non-existent schema path the run terminates with exit
status 1 and the `File not found` diagnostic, regardless of what parsing
would have produced (the existence check precedes the parse) and of the
selection input, and no file is written (an error result carries no
`(path, content)` pairs; generation is never reached). -/
theorem c6_missing_schema_exits_before_parse :
    ∀ (vendor module : String) (entityArg : Option String) (db_schema_path : String)
      (parseResult : Except RunError (List Table)) (selectionInput : String),
      main_run vendor module entityArg db_schema_path false parseResult selectionInput
        = Except.error (RunError.exit 1 ("Error: File not found: " ++ db_schema_path)) := by
  intro vendor module entityArg db_schema_path parseResult selectionInput
  rfl

/-- Claim C4: the type mapper performs a case-insensitive lookup in the
fixed table (`int`/`smallint`/`bigint` ↦ `int`, `decimal`/`float`/`double`
↦ `float`, `boolean` ↦ `bool`, `varchar`/`text` ↦ `string`,
`timestamp`/`datetime`/`date` ↦ `\DateTimeInterface`): results depend only
on the lower-cased tag, all table entries map as documented, case variants
map identically, and any tag whose lower-cased form is outside the table
maps to the default `"string"`. -/
theorem c4_type_mapping_table :
    (∀ s u : String, pyLower s = pyLower u →
        map_db_type_to_php_type (some s) = map_db_type_to_php_type (some u))
    ∧ (∀ s : String, pyLower s ∉ php_type_mapping.map Prod.fst →
        map_db_type_to_php_type (some s) = some "string")
    ∧ map_db_type_to_php_type (some "int") = some "int"
    ∧ map_db_type_to_php_type (some "smallint") = some "int"
    ∧ map_db_type_to_php_type (some "bigint") = some "int"
    ∧ map_db_type_to_php_type (some "decimal") = some "float"
    ∧ map_db_type_to_php_type (some "float") = some "float"
    ∧ map_db_type_to_php_type (some "double") = some "float"
    ∧ map_db_type_to_php_type (some "boolean") = some "bool"
    ∧ map_db_type_to_php_type (some "varchar") = some "string"
    ∧ map_db_type_to_php_type (some "text") = some "string"
    ∧ map_db_type_to_php_type (some "timestamp") = some "\\DateTimeInterface"
    ∧ map_db_type_to_php_type (some "datetime") = some "\\DateTimeInterface"
    ∧ map_db_type_to_php_type (some "date") = some "\\DateTimeInterface"
    ∧ map_db_type_to_php_type (some "INT") = some "int"
    ∧ map_db_type_to_php_type (some "Varchar") = some "string"
    ∧ map_db_type_to_php_type (some "DateTime") = some "\\DateTimeInterface"
    ∧ map_db_type_to_php_type (some "uuid") = some "string" := by
  refine ⟨?_, ?_, by decide⟩
  · intro s u h
    simp [map_db_type_to_php_type, h]
  · intro s h
    have hk : ∀ p ∈ php_type_mapping, pyLower s ≠ p.1 := by
      intro p hp he
      exact h (he ▸ List.mem_map_of_mem Prod.fst hp)
    simp only [map_db_type_to_php_type]
    rw [dict_get_eq_default hk]

/-- Witness for C4: both hypothesized conjuncts applied at concrete
inputs — `"VARCHAR"` and `"varchar"` have the same lower-cased form, and
`"uuid"` is outside the mapping table. -/
theorem c4_witness :
    map_db_type_to_php_type (some "VARCHAR") = map_db_type_to_php_type (some "varchar")
    ∧ map_db_type_to_php_type (some "uuid") = some "string" :=
  ⟨c4_type_mapping_table.1 "VARCHAR" "varchar" (by decide),
   c4_type_mapping_table.2.1 "uuid" (by decide)⟩

/-- Counterexample for C3: the claim describes the kept segments as
concatenated "with the first letter upper-cased" (no other casing change),
which on the table name `"aB"` would yield `"AB"`; the code applies
Python's `capitalize`, which also lower-cases the rest of each segment,
and yields `"Ab"`. -/
theorem c3_counterexample :
    convert_table_to_entity "aB" = "Ab" ∧ convert_table_to_entity "aB" ≠ "AB" := by
  decide

/-- Claim C3 (amended): the entity name is obtained by splitting the table
name on underscore, keeping the last two segments when more than one
exists (all segments otherwise, which coincides with keeping the last
two), and concatenating each kept segment `capitalize`d (first letter
upper-cased, remaining letters lower-cased); the three documented examples
hold. -/
theorem c3_entity_from_table :
    (∀ s : String, convert_table_to_entity s
        = String.mk ((((splitOnChar '_' s.data).reverse.take 2).reverse.map pyCapitalizeL).flatten))
    ∧ convert_table_to_entity "bss_custom_entity" = "CustomEntity"
    ∧ convert_table_to_entity "widget" = "Widget"
    ∧ convert_table_to_entity "a_b_c" = "BC" := by
  refine ⟨?_, by decide⟩
  intro s
  unfold convert_table_to_entity
  by_cases hl : (splitOnChar '_' s.data).length > 1
  · simp only [if_pos hl]
    rw [drop_length_sub_two]
  · simp only [if_neg hl]
    have h2 : (splitOnChar '_' s.data).reverse.take 2 = (splitOnChar '_' s.data).reverse := by
      apply List.take_of_length_le
      rw [List.length_reverse]
      omega
    rw [h2, List.reverse_reverse]

/-- Counterexample for C2: the claim describes the property form as the
first segment unchanged and each subsequent segment "with its first letter
upper-cased", which on the attribute name `"a_bC"` would yield `"aBC"`;
the code applies Python's `capitalize` to each later segment, which also
lower-cases the rest of the segment, and yields `"aBc"`. -/
theorem c2_counterexample :
    snake_to_camel "a_bC" = "aBc" ∧ snake_to_camel "a_bC" ≠ "aBC" := by
  decide

/-- Claim C2 (amended): the three derived names are mutually consistent,
with the property form being the medial capitalization of the attribute
name where each subsequent segment is `capitalize`d (first letter
upper-cased, remaining letters lower-cased): the property form keeps the
first underscore segment unchanged and appends the `capitalize`d later
segments; the rendered method-name suffix is the property form with its
first letter upper-cased (`method_suffix`, the computation the renderers
use); and the documented examples hold, including the constant forms
`"FIRST_NAME"`/`"ID"` obtained by upper-casing the original name with the
delimiter preserved. -/
theorem c2_name_derivation_consistent :
    (∀ n : String, snake_to_camel n
        = String.mk ((splitOnChar '_' n.data).headI
            ++ (((splitOnChar '_' n.data).tail).map pyCapitalizeL).flatten))
    ∧ (∀ n : String, (snake_to_camel n).data ≠ [] →
        method_suffix (snake_to_camel n) = some (upper_first (snake_to_camel n)))
    ∧ snake_to_camel "first_name" = "firstName"
    ∧ "set" ++ upper_first (snake_to_camel "first_name") = "setFirstName"
    ∧ "get" ++ upper_first (snake_to_camel "first_name") = "getFirstName"
    ∧ pyUpper "first_name" = "FIRST_NAME"
    ∧ snake_to_camel "id" = "id"
    ∧ "set" ++ upper_first (snake_to_camel "id") = "setId"
    ∧ "get" ++ upper_first (snake_to_camel "id") = "getId"
    ∧ pyUpper "id" = "ID" := by
  refine ⟨?_, fun n h => method_suffix_some h, by decide⟩
  intro n
  cases hs : splitOnChar '_' n.data with
  | nil => exact absurd hs (splitOnChar_ne_nil '_' n.data)
  | cons c rest => simp [snake_to_camel, hs]

/-- Witness for C2: the hypothesized conjunct applied at `"first_name"`,
whose camel form `"firstName"` is nonempty. -/
theorem c2_witness :
    method_suffix (snake_to_camel "first_name") = some (upper_first (snake_to_camel "first_name")) :=
  c2_name_derivation_consistent.2.1 "first_name" (by decide)

/-- Counterexample for C10: the claim states that for every attribute name
with two or more underscore-separated segments whose later segments
contain letters, the helper names differ from the rendered names.  The
name `"a_1b"` has two segments and its second segment contains the letter
`b`, yet its camel form `"a1b"` has no upper-case letter after position 0,
so `create_set_method_name`/`create_get_method_name` agree exactly with
the rendered `set`/`get` names. -/
theorem c10_counterexample :
    create_set_method_name "a_1b" = "setA1b"
    ∧ "set" ++ upper_first (snake_to_camel "a_1b") = "setA1b"
    ∧ create_get_method_name "a_1b" = "getA1b"
    ∧ "get" ++ upper_first (snake_to_camel "a_1b") = "getA1b" := by
  decide

/-- Claim C10 (amended): `create_set_method_name`/`create_get_method_name`
apply Python's `capitalize` to the camel form, so they agree with the
rendered method names (which upper-case only the first character of the
camel form) exactly when the camel form has no upper-case letter after
position 0; in particular they disagree on `"first_name"`, returning
`"setFirstname"` where the renderers emit `"setFirstName"`. -/
theorem c10_helper_vs_rendered :
    (∀ n : String, (snake_to_camel n).data ≠ [] →
      ((create_set_method_name n = "set" ++ upper_first (snake_to_camel n))
          ↔ ∀ c ∈ (snake_to_camel n).data.tail, c.isUpper = false)
      ∧ ((create_get_method_name n = "get" ++ upper_first (snake_to_camel n))
          ↔ ∀ c ∈ (snake_to_camel n).data.tail, c.isUpper = false))
    ∧ create_set_method_name "first_name" = "setFirstname"
    ∧ "set" ++ upper_first (snake_to_camel "first_name") = "setFirstName"
    ∧ ("setFirstname" : String) ≠ "setFirstName" := by
  refine ⟨?_, by decide, by decide, by decide⟩
  intro n h
  cases hd : (snake_to_camel n).data with
  | nil => exact absurd hd h
  | cons c cs =>
    have key : ∀ pre : String,
        ((pre ++ pyCapitalize (snake_to_camel n) = pre ++ upper_first (snake_to_camel n))
          ↔ ∀ x ∈ cs, x.isUpper = false) := by
      intro pre
      rw [String.ext_iff]
      simp only [String.data_append, List.append_right_inj]
      have h1 : (pyCapitalize (snake_to_camel n)).data = c.toUpper :: cs.map Char.toLower := by
        simp [pyCapitalize, hd, pyCapitalizeL]
      have h2 : (upper_first (snake_to_camel n)).data = c.toUpper :: cs := by
        simp [upper_first, hd]
      rw [h1, h2]
      simp only [List.cons.injEq, true_and]
      rw [list_map_eq_self_iff]
      constructor
      · intro hm x hx
        exact (char_toLower_eq_self_iff x).mp (hm x hx)
      · intro hm x hx
        exact (char_toLower_eq_self_iff x).mpr (hm x hx)
    exact ⟨key "set", key "get"⟩

/-- Witness for C10: the hypothesized conjunct applied at `"first_name"`;
its camel form `"firstName"` has the upper-case `N` after position 0, and
indeed the helper name differs from the rendered name. -/
theorem c10_witness :
    (create_set_method_name "first_name"
        = "set" ++ upper_first (snake_to_camel "first_name"))
      ↔ ∀ c ∈ (snake_to_camel "first_name").data.tail, c.isUpper = false :=
  (c10_helper_vs_rendered.1 "first_name" (by decide)).1

theorem interfaceLineBlocks_lines_ne_nil (attrs : List (String × String)) :
    ∀ b ∈ interfaceLineBlocks attrs, ∀ x ∈ b, x ≠ [] := by
  intro b hb x hx
  simp only [interfaceLineBlocks, List.mem_flatMap] at hb
  obtain ⟨a, _, hb2⟩ := hb
  rcases List.mem_cons.mp hb2 with h0 | h0
  · subst h0
    rcases List.mem_map.mp hx with ⟨line, hline, hle⟩
    exact hle ▸ interface_setter_lines_ne_nil a.1 a.2 (snake_to_camel a.1)
      (upper_first (snake_to_camel a.1)) line hline
  · rcases List.mem_cons.mp h0 with h1 | h1
    · subst h1
      rcases List.mem_map.mp hx with ⟨line, hline, hle⟩
      exact hle ▸ interface_getter_lines_ne_nil a.1 a.2
        (upper_first (snake_to_camel a.1)) line hline
    · simp at h1

/-- Claim C5: with more than one table, a 1-based numeric selection picks
the corresponding table — for tables `a`, `b` the input `"2"` selects
table `b` and the generated artifacts use the entity `"B"` derived from
it — while any selection that is not a digit string or is out of range
1..len(tables) terminates the run with exit status 1 and no file written
(the error result carries no `(path, content)` pairs; generation is never
reached). -/
theorem c5_table_selection :
    (main_run "Vendor" "Module" none "db_schema.xml" true
        (Except.ok [⟨"a", []⟩, ⟨"b", []⟩]) "2"
      = Except.ok
          [("app/code/Vendor/Module/Api/Data/BInterface.php",
            TEMPLATE_DATA_INTERFACE "Vendor" "Module" "B" "" ""),
           ("app/code/Vendor/Module/Model/Data/B.php",
            TEMPLATE_DATA_CLASS "Vendor" "Module" "B" "")])
    ∧ convert_table_to_entity "b" = "B"
    ∧ main_run "Vendor" "Module" none "db_schema.xml" true
        (Except.ok [⟨"a", []⟩, ⟨"b", []⟩]) "0"
      = Except.error (RunError.exit 1 "Invalid selection.")
    ∧ main_run "Vendor" "Module" none "db_schema.xml" true
        (Except.ok [⟨"a", []⟩, ⟨"b", []⟩]) "3"
      = Except.error (RunError.exit 1 "Invalid selection.")
    ∧ main_run "Vendor" "Module" none "db_schema.xml" true
        (Except.ok [⟨"a", []⟩, ⟨"b", []⟩]) "x"
      = Except.error (RunError.exit 1 "Invalid selection.")
    ∧ (∀ (vendor module : String) (entityArg : Option String) (path : String)
         (tables : List Table) (sel : String),
        1 < tables.length →
        ¬(py_isdigit (py_strip sel) = true ∧ 1 ≤ py_int (py_strip sel)
            ∧ py_int (py_strip sel) ≤ tables.length) →
        main_run vendor module entityArg path true (Except.ok tables) sel
          = Except.error (RunError.exit 1 "Invalid selection.")) := by
  refine ⟨by rfl, by decide, by rfl, by rfl, by rfl, ?_⟩
  intro vendor module entityArg path tables sel hlen hinv
  cases tables with
  | nil => simp at hlen
  | cons t ts =>
    have hlen2 : 0 < ts.length := by
      simp at hlen
      omega
    have hinv2 : ¬(py_isdigit (py_strip sel) = true ∧ 1 ≤ py_int (py_strip sel)
        ∧ py_int (py_strip sel) ≤ ts.length + 1) := by
      simpa using hinv
    simp only [main_run]
    simp [hlen2, hinv2]

/-- Witness for C5: the hypothesized conjunct applied at a concrete
two-table list and the digit selection `"9"`, which is out of range. -/
theorem c5_witness :
    main_run "Vendor" "Module" none "db_schema.xml" true
        (Except.ok [⟨"a", []⟩, ⟨"b", []⟩]) "9"
      = Except.error (RunError.exit 1 "Invalid selection.") :=
  c5_table_selection.2.2.2.2.2 "Vendor" "Module" none "db_schema.xml"
    [⟨"a", []⟩, ⟨"b", []⟩] "9" (by decide) (by decide)

/-- Claim C7: the generated artifacts preserve column order with no
reordering and no deduplication.  `main` builds the attribute list as a
1:1 map over the selected table's columns (so attribute names appear in
column order, duplicates included), the constants block is a 1:1 map over
the attribute list, and the method text of both artifacts is the
concatenation of one setter/getter pair per attribute in list order
(`List.flatMap`, which keeps order and multiplicity). -/
theorem c7_order_and_duplicates_preserved :
    (∀ (columns : List Column) (attrs : List (String × String)),
        main_attributes columns = Except.ok attrs →
        attrs.map Prod.fst = columns.map Column.name)
    ∧ (∀ attrs : List (String × String),
        generate_interface_constants attrs = joinSep "\n" (attrs.map interface_constant_line))
    ∧ (∀ attrs : List (String × String), (∀ a ∈ attrs, (snake_to_camel a.1).data ≠ []) →
        generate_interface_methods attrs
          = some (joinSep "\n\n"
              (attrs.flatMap fun a => [interface_setter_of a, interface_getter_of a])))
    ∧ (∀ attrs : List (String × String), (∀ a ∈ attrs, (snake_to_camel a.1).data ≠ []) →
        generate_data_class_methods attrs
          = some (joinSep "\n\n"
              (attrs.flatMap fun a => [data_class_setter_of a, data_class_getter_of a]))) := by
  refine ⟨?_, fun attrs => rfl, fun attrs h => generate_interface_methods_eq h,
    fun attrs h => generate_data_class_methods_eq h⟩
  intro columns
  induction columns with
  | nil =>
    intro attrs h
    rw [main_attributes, List.mapM_nil] at h
    cases h
    rfl
  | cons col rest ih =>
    intro attrs h
    rw [main_attributes, List.mapM_cons] at h
    cases hmt : map_db_type_to_php_type col.type with
    | none =>
      rw [hmt] at h
      simp [Bind.bind, Except.bind] at h
    | some ty =>
      rw [hmt] at h
      cases hr : main_attributes rest with
      | error e =>
        rw [main_attributes] at hr
        rw [hr] at h
        simp [Bind.bind, Except.bind, Pure.pure, Except.pure] at h
      | ok xs =>
        rw [main_attributes] at hr
        rw [hr] at h
        simp only [Bind.bind, Except.bind, Pure.pure, Except.pure, Except.ok.injEq] at h
        subst h
        simp only [List.map_cons]
        rw [ih xs (by rw [main_attributes]; exact hr)]

/-- Witness for C7: a duplicated column yields a duplicated attribute and
duplicated setter/getter pairs — nothing is merged or dropped. -/
theorem c7_witness :
    ([("id", "int"), ("id", "int")] : List (String × String)).map Prod.fst
        = ([⟨"id", some "int"⟩, ⟨"id", some "int"⟩] : List Column).map Column.name
    ∧ generate_interface_methods [("id", "int"), ("id", "int")]
        = some (joinSep "\n\n" (([("id", "int"), ("id", "int")] : List (String × String)).flatMap
            fun a => [interface_setter_of a, interface_getter_of a])) :=
  ⟨c7_order_and_duplicates_preserved.1 [⟨"id", some "int"⟩, ⟨"id", some "int"⟩]
      [("id", "int"), ("id", "int")] (by rfl),
   c7_order_and_duplicates_preserved.2.2.1 [("id", "int"), ("id", "int")] (by decide)⟩

/-- Claim C9: in the data-class artifact every setter declaration is the
shared documentation-block-plus-signature followed by a body that is
exactly `return $this->setData(self::CONST, $camel);`, every getter
declaration is the shared signature followed by exactly
`return $this->getData(self::CONST);`, and the interface artifact declares
the same signatures (the identical signature text followed by `";"`), so
both artifacts declare the same method names for the same attribute
list. -/
theorem c9_data_class_delegates :
    (∀ attrs : List (String × String), (∀ a ∈ attrs, (snake_to_camel a.1).data ≠ []) →
        generate_data_class_methods attrs
          = some (joinSep "\n\n"
              (attrs.flatMap fun a => [data_class_setter_of a, data_class_getter_of a])))
    ∧ (∀ n t c s k : String,
        data_class_setter n t c s k = setter_signature n t c s ++
          ("\n    \x7b\n        return $this->setData(self::" ++ k ++ ", $" ++ c ++ ");\n    \x7d"))
    ∧ (∀ n t s k : String,
        data_class_getter n t s k = getter_signature n t s ++
          ("\n    \x7b\n        return $this->getData(self::" ++ k ++ ");\n    \x7d"))
    ∧ (∀ n t c s : String, interface_setter n t c s = setter_signature n t c s ++ ";")
    ∧ (∀ n t s : String, interface_getter n t s = getter_signature n t s ++ ";") :=
  ⟨fun _ h => generate_data_class_methods_eq h,
   data_class_setter_sig, data_class_getter_sig, interface_setter_sig, interface_getter_sig⟩

/-- Witness for C9: the hypothesized conjunct applied at a concrete
attribute list. -/
theorem c9_witness :
    generate_data_class_methods [("first_name", "string")]
      = some (joinSep "\n\n" (([("first_name", "string")] : List (String × String)).flatMap
          fun a => [data_class_setter_of a, data_class_getter_of a])) :=
  c9_data_class_delegates.1 [("first_name", "string")] (by decide)

/-- Claim C8: for every nonempty attribute list (whose names and types
contain no newline and whose camel forms are nonempty, so that rendering
succeeds and "lines" are well defined), the lines of the generated
interface methods text are exactly the setter block, one empty line, the
getter block, one empty line, the next setter block, … — i.e. consecutive
method declarations are separated by exactly one blank line each
(`blockSeparated` inserts exactly one `[]` between consecutive declaration
blocks) and every line inside a declaration block is nonempty; appending
the template tail `"\n\x7d\n"` puts the closing brace on the line directly
after the final method line, so no blank line follows the last
declaration; and the full rendered artifact is the template head followed
by the methods text and `"\n\x7d\n"`. -/
theorem c8_interface_blank_lines :
    ∀ (attrs : List (String × String)) (vendor module entity : String),
      attrs ≠ [] →
      (∀ a ∈ attrs, '\n' ∉ a.1.data ∧ '\n' ∉ a.2.data ∧ (snake_to_camel a.1).data ≠ []) →
      ∃ s, generate_interface_methods attrs = some s
        ∧ splitOnChar '\n' s.data = blockSeparated (interfaceLineBlocks attrs)
        ∧ (∀ b ∈ interfaceLineBlocks attrs, b ≠ [] ∧ ∀ line ∈ b, line ≠ [])
        ∧ splitOnChar '\n' (s.data ++ ('\n' :: '\x7d' :: '\n' :: []))
            = blockSeparated (interfaceLineBlocks attrs) ++ [['\x7d'], []]
        ∧ TEMPLATE_DATA_INTERFACE vendor module entity (generate_interface_constants attrs) s
            = interface_artifact_start vendor module entity (generate_interface_constants attrs)
              ++ s ++ "\n\x7d\n" := by
  intro attrs vendor module entity hne h
  have hc : ∀ a ∈ attrs, (snake_to_camel a.1).data ≠ [] := fun a ha => (h a ha).2.2
  have hblocksne : interfaceLineBlocks attrs ≠ [] := interfaceLineBlocks_ne_nil hne
  have hbne : ∀ b ∈ interfaceLineBlocks attrs, b ≠ [] := interfaceLineBlocks_blocks_ne_nil attrs
  have hsepne : blockSeparated (interfaceLineBlocks attrs) ≠ [] :=
    blockSeparated_ne_nil hblocksne hbne
  have hnl : ∀ x ∈ blockSeparated (interfaceLineBlocks attrs), '\n' ∉ x := by
    intro x hx
    rcases blockSeparated_mem hx with h0 | ⟨b, hb, hxb⟩
    · subst h0
      simp
    · exact interfaceLineBlocks_nl (fun a ha => ⟨(h a ha).1, (h a ha).2.1⟩) b hb x hxb
  refine ⟨_, generate_interface_methods_eq hc, ?_, ?_, ?_, ?_⟩
  · rw [interface_methods_data]
    exact splitOnChar_joinLC hsepne hnl
  · intro b hb
    exact ⟨hbne b hb, interfaceLineBlocks_lines_ne_nil attrs b hb⟩
  · rw [interface_methods_data]
    rw [splitOnChar_joinLC_append hsepne hnl ('\x7d' :: '\n' :: [])]
    rfl
  · unfold TEMPLATE_DATA_INTERFACE interface_artifact_start
    apply String.ext
    simp [String.data_append, List.append_assoc]

/-- Witness for C8: the claim applied at the single-attribute list
`[("first_name", "string")]`, whose name and type are newline-free and
whose camel form `"firstName"` is nonempty. -/
theorem c8_witness :
    ∃ s, generate_interface_methods [("first_name", "string")] = some s
      ∧ splitOnChar '\n' s.data
          = blockSeparated (interfaceLineBlocks [("first_name", "string")])
      ∧ (∀ b ∈ interfaceLineBlocks [("first_name", "string")], b ≠ [] ∧ ∀ line ∈ b, line ≠ [])
      ∧ splitOnChar '\n' (s.data ++ ('\n' :: '\x7d' :: '\n' :: []))
          = blockSeparated (interfaceLineBlocks [("first_name", "string")]) ++ [['\x7d'], []]
      ∧ TEMPLATE_DATA_INTERFACE "Vendor" "Module" "Entity"
            (generate_interface_constants [("first_name", "string")]) s
          = interface_artifact_start "Vendor" "Module" "Entity"
              (generate_interface_constants [("first_name", "string")])
            ++ s ++ "\n\x7d\n" :=
  c8_interface_blank_lines [("first_name", "string")] "Vendor" "Module" "Entity"
    (by decide) (by decide)
